import Mathlib

/-!
Verification of the review-scheduling core of `language-reminder-server`
(`src/main.py`) against its natural-language specification.

Shallow embedding conventions:
* Timestamps are modelled as `Nat` (seconds).  The Python code stores
  `datetime.utcnow().isoformat()` strings and compares them as strings;
  for the fixed ISO-8601 format produced by `isoformat()` lexicographic
  order agrees with chronological order, so `Nat` with `≤` is faithful.
  `timedelta(minutes=10) = 600`, `hours=12 = 43200`, `days=1 = 86400`,
  `days=3 = 259200` seconds.
* The SQLite `sentences` table is a list of rows plus the AUTOINCREMENT
  counter (`nextId`, starting at 1); rows are appended in insertion
  order, so the list is ordered by increasing `id`.
* Ratings and review states are the raw strings the code uses.
* Telegram side effects (`tg_*`) never touch the `sentences` table and
  are omitted; the HTTP layer is represented by the result records the
  handlers return.
-/

/-- One row of the `sentences` table created by `init_db` in
`src/main.py`: columns `id`, `text`, `level`, `source`,
`review_state` (SQL default `'new'`), `next_review_at` (nullable),
`created_at`, and the `ensure_column`-added nullable
`telegram_chat_id`. -/
structure Sentence where
  id : Nat
  text : String
  level : String
  source : String
  review_state : String
  next_review_at : Option Nat
  created_at : Nat
  telegram_chat_id : Option Int
  deriving Repr, DecidableEq

/-- The SQLite database state relevant to the claims: the `sentences`
rows in insertion (rowid) order and the AUTOINCREMENT counter. -/
structure DB where
  rows : List Sentence
  nextId : Nat
  deriving Repr, DecidableEq

/-- A freshly created database (`init_db` on a missing file). -/
def DB.empty : DB := { rows := [], nextId := 1 }

/-- `calc_next_review` from `src/main.py`: maps a rating string to the
next review timestamp.  `"again" ↦ now+10min`, `"hard" ↦ now+12h`,
`"good" ↦ now+1day`, `"easy" ↦ now+3days`; any other string falls
through `mapping.get`'s default `now + timedelta(days=1)`.  The Python
function reads `datetime.utcnow()` itself; here `now` is explicit. -/
def calc_next_review (state : String) (now : Nat) : Nat :=
  if state = "again" then now + 600
  else if state = "hard" then now + 43200
  else if state = "good" then now + 86400
  else if state = "easy" then now + 259200
  else now + 86400

/-- The four rating strings the spec calls valid. -/
def validRating (r : String) : Prop :=
  r = "again" ∨ r = "hard" ∨ r = "good" ∨ r = "easy"

instance (r : String) : Decidable (validRating r) := by
  unfold validRating
  infer_instance

/-- `save_sentence` from `src/main.py`: INSERTs a row with the given
`text`, `level`, `source`, `created_at = now` and `telegram_chat_id`;
`review_state` takes the SQL default `'new'` and `next_review_at` is
not in the column list, so it is NULL.  Returns the new database and
`cur.lastrowid`. -/
def save_sentence (db : DB) (text level source : String)
    (telegram_chat_id : Option Int) (now : Nat) : DB × Nat :=
  let sid := db.nextId
  let row : Sentence :=
    { id := sid, text := text, level := level, source := source
      review_state := "new", next_review_at := none
      created_at := now, telegram_chat_id := telegram_chat_id }
  ({ rows := db.rows ++ [row], nextId := sid + 1 }, sid)

/-- The JSON object `apply_review` returns on success. -/
structure ReviewResult where
  sentence_id : Nat
  review_state : String
  next_review_at : Nat
  deriving Repr, DecidableEq

/-- `apply_review` from `src/main.py`: computes
`next_time = calc_next_review(review_state)`, runs
`UPDATE sentences SET review_state = ?, next_review_at = ? WHERE id = ?`
and commits; if the UPDATE matched no row (`cur.rowcount == 0`) it
raises 404 "Sentence not found", otherwise it returns
`{sentence_id, review_state, next_review_at}`.  The UPDATE is always
executed and committed, so the returned database is the post-UPDATE
state in both branches (a zero-row UPDATE changes nothing). -/
def apply_review (db : DB) (sentence_id : Nat) (review_state : String)
    (now : Nat) : DB × Except String ReviewResult :=
  let next_time := calc_next_review review_state now
  let newRows := db.rows.map fun s =>
    if s.id = sentence_id then
      { s with review_state := review_state, next_review_at := some next_time }
    else s
  let db' : DB := { db with rows := newRows }
  if db.rows.any (fun s => s.id = sentence_id) then
    (db', .ok { sentence_id := sentence_id, review_state := review_state
                next_review_at := next_time })
  else
    (db', .error "Sentence not found")

/-- The row transformation performed by `apply_review`'s UPDATE on a
single row: rows whose `id` matches get the new `review_state` and
`next_review_at`, all other rows pass through untouched. -/
def updateRow (sid : Nat) (r : String) (now : Nat) (s : Sentence) : Sentence :=
  if s.id = sid then
    { s with review_state := r, next_review_at := some (calc_next_review r now) }
  else s

/-- The JSON object the `/ingest` route returns. -/
structure IngestResult where
  ok : Bool
  saved : Bool
  sentence_id : Nat
  deriving Repr, DecidableEq

/-- The `/ingest` route from `src/main.py`: calls
`save_sentence(text, level, source, telegram_chat_id=None)` on the body
as received — no trimming and no emptiness check — then (Telegram push
aside, which does not touch the store) returns
`{"ok": True, "saved": True, "sentence_id": id}`. -/
def ingest (db : DB) (text level source : String) (now : Nat) :
    DB × IngestResult :=
  let (db', sid) := save_sentence db text level source none now
  (db', { ok := true, saved := true, sentence_id := sid })

/-- The WHERE clause of the `/next` query:
`next_review_at IS NULL OR next_review_at <= now`. -/
def isDue (now : Nat) (s : Sentence) : Bool :=
  match s.next_review_at with
  | none => true
  | some t => t ≤ now

/-- The sort key of the `/next` query:
`COALESCE(next_review_at, created_at)`. -/
def dueKey (s : Sentence) : Nat :=
  s.next_review_at.getD s.created_at

/-- One step of the `ORDER BY … ASC LIMIT 1` scan: a strictly smaller
key replaces the current best row, an equal one does not. -/
def pickStep (acc : Option Sentence) (s : Sentence) : Option Sentence :=
  match acc with
  | none => some s
  | some b => if dueKey s < dueKey b then some s else some b

/-- `ORDER BY key ASC LIMIT 1` over rows scanned in rowid order: keep
the first row attaining the minimal key. -/
def pickMin (l : List Sentence) : Option Sentence :=
  l.foldl pickStep none

/-- The `/next` route (`next_sentence`) from `src/main.py`:
`SELECT * FROM sentences WHERE next_review_at IS NULL OR
next_review_at <= now ORDER BY COALESCE(next_review_at, created_at) ASC
LIMIT 1`, returning the row or none.  The query has no language/level
filter and no secondary ORDER BY. -/
def next_sentence (db : DB) (now : Nat) : Option Sentence :=
  pickMin (db.rows.filter (isDue now))

/-- Modelled from the spec (§4.3, §6): `next_due(partition, now)` —
"among items in the given partition with `due_at <= now`, return the
one with the smallest `due_at`; break ties by smallest `id`"; none when
no item of the partition is due.  The code's analogue of the item's
language partition is the `level` column, and its due timestamp is
`COALESCE(next_review_at, created_at)`.  This definition follows the
spec's words, to be compared with `next_sentence`. -/
def next_due_spec (db : DB) (partition : String) (now : Nat) :
    Option Sentence :=
  (db.rows.filter (fun s => s.level == partition && dueKey s ≤ now)).foldl
    (fun acc s =>
      match acc with
      | none => some s
      | some b =>
        if dueKey s < dueKey b ∨ (dueKey s = dueKey b ∧ s.id < b.id)
        then some s else some b)
    none

/-! ## Concrete stores used by counterexamples and witnesses -/

/-- A never-reviewed sentence with id 1. -/
def rowOne : Sentence :=
  { id := 1, text := "la pomme est rouge", level := "es"
    source := "test", review_state := "new"
    next_review_at := none, created_at := 0
    telegram_chat_id := none }

/-- A store holding only `rowOne`. -/
def dbOne : DB := { rows := [rowOne], nextId := 2 }

/-- A reviewed sentence of the `es` partition, due at time 50. -/
def rowEs : Sentence :=
  { id := 1, text := "hola", level := "es", source := "test"
    review_state := "good", next_review_at := some 50, created_at := 10
    telegram_chat_id := none }

/-- A store holding only `rowEs`. -/
def dbEs : DB := { rows := [rowEs], nextId := 2 }

/-! ## Helper lemmas about `apply_review` -/

/-- The database after `apply_review`: the UPDATE maps `updateRow` over
every row. -/
theorem apply_review_fst (db : DB) (sid : Nat) (r : String) (now : Nat) :
    (apply_review db sid r now).1 =
      { db with rows := db.rows.map (updateRow sid r now) } := by
  unfold apply_review updateRow
  split <;> rfl

/-- The HTTP-level outcome of `apply_review`: 404 exactly when no row
matched, otherwise the result JSON. -/
theorem apply_review_snd (db : DB) (sid : Nat) (r : String) (now : Nat) :
    (apply_review db sid r now).2 =
      if db.rows.any (fun s => s.id = sid) then
        .ok { sentence_id := sid, review_state := r
              next_review_at := calc_next_review r now }
      else .error "Sentence not found" := by
  unfold apply_review
  split <;> simp_all

/-- `updateRow` never changes a row's id. -/
theorem updateRow_id (sid : Nat) (r : String) (now : Nat) (s : Sentence) :
    (updateRow sid r now s).id = s.id := by
  unfold updateRow
  split <;> rfl

/-- `updateRow` is idempotent: rewriting an already-rewritten row with
the same rating and instant changes nothing. -/
theorem updateRow_idem (sid : Nat) (r : String) (now : Nat) (s : Sentence) :
    updateRow sid r now (updateRow sid r now s) = updateRow sid r now s := by
  unfold updateRow
  by_cases h : s.id = sid <;> simp [h]

/-! ## Claim C1 — unknown ratings -/

/-- Claim C1 (refuted by the code, which matches the "latent bug"
variant the spec flags): for the unknown rating `"meh"` on existing
item 1, `apply_review` does not reject; it stores `"meh"` as the review
state, schedules the item with the Good offset (`+1 day`, via
`mapping.get`'s default), and answers 200 OK.  `calc_next_review` maps
`"meh"` exactly as it maps `"good"`. -/
theorem C1_unknown_rating_defaulted :
    (apply_review dbOne 1 "meh" 0).2 =
      .ok { sentence_id := 1, review_state := "meh", next_review_at := 86400 } ∧
    ((apply_review dbOne 1 "meh" 0).1.rows.map fun s =>
      (s.review_state, s.next_review_at)) = [("meh", some 86400)] ∧
    (∀ now : Nat, calc_next_review "meh" now = calc_next_review "good" now) ∧
    (apply_review dbOne 1 "meh" 0).1 ≠ dbOne := by
  refine ⟨rfl, by decide, fun now => rfl, by decide⟩

/-! ## Claim C2 — resulting review state -/

/-- Claim C2 as stated is false: rating item 1 with `"again"` stores
the literal rating string `"again"` in `review_state`, not the lifecycle
state `Relearning` the policy table prescribes. -/
theorem C2_counterexample :
    ((apply_review dbOne 1 "again" 0).1.rows.map (·.review_state)) = ["again"] ∧
    "again" ≠ "relearning" := by
  decide

/-- Claim C2 amended: for every existing item and every rating (the
valid ones included), `apply_review` sets the stored `review_state` to
the rating string itself — the state column receives `"again"`,
`"hard"`, `"good"` or `"easy"`, never `Relearning`/`Learning`/`Review`. -/
theorem C2_amended_state_is_rating (db : DB) (sid : Nat) (r : String)
    (now : Nat) (h : ∃ s ∈ db.rows, s.id = sid) :
    ∃ s' ∈ (apply_review db sid r now).1.rows,
      s'.id = sid ∧ s'.review_state = r := by
  obtain ⟨s, hs, hid⟩ := h
  refine ⟨({ s with
             review_state := r
             next_review_at := some (calc_next_review r now) } : Sentence),
    ?_, hid, rfl⟩
  rw [apply_review_fst]
  exact List.mem_map.mpr ⟨s, hs, by simp [updateRow, hid]⟩

/-- Witness for C2's amended theorem on the concrete store `dbOne`,
rating `"good"`. -/
theorem C2_amended_state_is_rating_witness :
    (∃ s ∈ dbOne.rows, s.id = 1) ∧
    ∃ s' ∈ (apply_review dbOne 1 "good" 0).1.rows,
      s'.id = 1 ∧ s'.review_state = "good" :=
  ⟨by decide, C2_amended_state_is_rating dbOne 1 "good" 0 (by decide)⟩

/-! ## Claim C4 — blank ingestion -/

/-- Claim C4 as stated is false: `/ingest` with the whitespace-only
text `"   "` reports `saved = true` and creates an item whose text is
the blank string verbatim; the store is not left unchanged. -/
theorem C4_counterexample :
    (ingest DB.empty "   " "en" "test" 0).2.saved = true ∧
    (ingest DB.empty "   " "en" "test" 0).1.rows ≠ [] ∧
    (∃ s ∈ (ingest DB.empty "   " "en" "test" 0).1.rows, s.text = "   ") := by
  refine ⟨rfl, by decide, by decide⟩

/-- Claim C4 amended: `/ingest` performs no trimming and no blank
check — every text, whitespace-only text included, is accepted: the
reply is `ok/saved` with the fresh id, and exactly one new row is
appended holding the text verbatim in state `"new"` with NULL
`next_review_at`. -/
theorem C4_amended_no_blank_rejection (db : DB)
    (text level source : String) (now : Nat) :
    (ingest db text level source now).2 =
      { ok := true, saved := true, sentence_id := db.nextId } ∧
    (ingest db text level source now).1.rows.length = db.rows.length + 1 ∧
    ∃ s ∈ (ingest db text level source now).1.rows,
      s.id = db.nextId ∧ s.text = text ∧ s.review_state = "new" ∧
      s.next_review_at = none ∧ s.created_at = now := by
  refine ⟨rfl, by simp [ingest, save_sentence],
    ⟨({ id := db.nextId
        text := text
        level := level
        source := source
        review_state := "new"
        next_review_at := none
        created_at := now
        telegram_chat_id := none } : Sentence), ?_, rfl, rfl, rfl, rfl, rfl⟩⟩
  simp [ingest, save_sentence]

/-! ## Claim C3 — due-time offsets -/

/-- Claim C3 (confirmed): for every existing item and every valid
rating, `apply_review` reports and stores a next review time equal to
the application instant plus the table offset — +10 min (600 s) for
again, +12 h (43200 s) for hard, +1 day (86400 s) for good and +3 days
(259200 s) for easy. -/
theorem C3_due_time_offsets (db : DB) (sid : Nat) (r : String) (now : Nat)
    (hr : validRating r) (h : ∃ s ∈ db.rows, s.id = sid) :
    (apply_review db sid r now).2 =
      .ok { sentence_id := sid
            review_state := r
            next_review_at := now + (if r = "again" then 600
              else if r = "hard" then 43200
              else if r = "good" then 86400 else 259200) } ∧
    ∃ s' ∈ (apply_review db sid r now).1.rows, s'.id = sid ∧
      s'.next_review_at = some (now + (if r = "again" then 600
        else if r = "hard" then 43200
        else if r = "good" then 86400 else 259200)) := by
  have hoff : calc_next_review r now = now + (if r = "again" then 600
      else if r = "hard" then 43200
      else if r = "good" then 86400 else 259200) := by
    rcases hr with rfl | rfl | rfl | rfl <;> rfl
  obtain ⟨s, hs, hid⟩ := h
  constructor
  · rw [apply_review_snd]
    have hany : db.rows.any (fun s => s.id = sid) = true :=
      List.any_eq_true.mpr ⟨s, hs, by simp [hid]⟩
    rw [hany, if_pos rfl, hoff]
  · refine ⟨({ s with
               review_state := r
               next_review_at := some (calc_next_review r now) } : Sentence),
      ?_, hid, by rw [hoff]⟩
    rw [apply_review_fst]
    exact List.mem_map.mpr ⟨s, hs, by simp [updateRow, hid]⟩

/-- Witness for C3 on `dbOne` with rating `"good"` at instant 0. -/
theorem C3_due_time_offsets_witness :
    validRating "good" ∧ (∃ s ∈ dbOne.rows, s.id = 1) ∧
    (apply_review dbOne 1 "good" 0).2 =
      .ok { sentence_id := 1, review_state := "good", next_review_at := 86400 } := by
  refine ⟨by decide, ⟨rowOne, by decide⟩, ?_⟩
  have h := C3_due_time_offsets dbOne 1 "good" 0
    (by decide) ⟨rowOne, by decide⟩
  simpa using h.1

/-! ## Claim C7 — rating a nonexistent item -/

/-- Claim C7 (confirmed): applying any rating to an id that no stored
row has returns the 404 error "Sentence not found" and leaves the
database exactly as it was (the UPDATE matches zero rows). -/
theorem C7_not_found (db : DB) (sid : Nat) (r : String) (now : Nat)
    (_hr : validRating r) (h : ∀ s ∈ db.rows, s.id ≠ sid) :
    apply_review db sid r now = (db, .error "Sentence not found") := by
  have hmap : db.rows.map (updateRow sid r now) = db.rows := by
    have := List.map_congr_left (l := db.rows)
      (f := updateRow sid r now) (g := id)
      (fun s hs => by simp [updateRow, h s hs])
    simpa using this
  have hany : db.rows.any (fun s => s.id = sid) = false :=
    List.any_eq_false.mpr (fun s hs => by simp [h s hs])
  refine Prod.ext ?_ ?_
  · rw [apply_review_fst, hmap]
  · rw [apply_review_snd, hany]
    simp

/-- Witness for C7: rating id 9999 in `dbOne`. -/
theorem C7_not_found_witness :
    validRating "good" ∧ (∀ s ∈ dbOne.rows, s.id ≠ 9999) ∧
    apply_review dbOne 9999 "good" 0 = (dbOne, .error "Sentence not found") :=
  ⟨by decide, by decide,
    C7_not_found dbOne 9999 "good" 0 (by decide) (by decide)⟩

/-! ## Claim C6 — counter updates -/

/-- Claim C6 as stated is false on the code: the `sentences` schema has
no `repetitions`, `lapses` or `last_rating` columns, so nothing is
counted — applying the valid non-Again rating `"good"` to item 1 a
second time (at the same instant) leaves the entire store bit-for-bit
identical to a single application, whereas the claim requires the
second application to increase `repetitions` again. -/
theorem C6_counterexample :
    (apply_review (apply_review dbOne 1 "good" 0).1 1 "good" 0).1 =
      (apply_review dbOne 1 "good" 0).1 ∧
    (apply_review (apply_review dbOne 1 "good" 0).1 1 "good" 0).2 =
      (apply_review dbOne 1 "good" 0).2 := by
  refine ⟨by decide, rfl⟩

/-- Claim C6 amended: `apply_review` performs no counter update at all —
atomically with the transition it rewrites exactly the matched row's
`review_state` (to the rating string) and `next_review_at`, keeps every
other column of that row and every other row unchanged, and maintains
no `repetitions`/`lapses`/`last_rating` data (the schema has no such
columns). -/
theorem C6_amended_no_counters (db : DB) (sid : Nat) (r : String)
    (now : Nat) (s : Sentence) (hs : s ∈ db.rows) :
    (apply_review db sid r now).1.rows.length = db.rows.length ∧
    (apply_review db sid r now).1.nextId = db.nextId ∧
    (s.id ≠ sid → s ∈ (apply_review db sid r now).1.rows) ∧
    (s.id = sid →
      ({ s with
         review_state := r
         next_review_at := some (calc_next_review r now) } : Sentence) ∈
        (apply_review db sid r now).1.rows) := by
  rw [apply_review_fst]
  refine ⟨by simp, rfl, ?_, ?_⟩
  · intro hne
    exact List.mem_map.mpr ⟨s, hs, by simp [updateRow, hne]⟩
  · intro heq
    exact List.mem_map.mpr ⟨s, hs, by simp [updateRow, heq]⟩

/-- Witness for C6's amended theorem: `rowOne` in `dbOne`, rating
`"hard"` at instant 0. -/
theorem C6_amended_no_counters_witness :
    rowOne ∈ dbOne.rows ∧
    ((apply_review dbOne 1 "hard" 0).1.rows.length = dbOne.rows.length ∧
     (apply_review dbOne 1 "hard" 0).1.nextId = dbOne.nextId ∧
     (rowOne.id ≠ 1 → rowOne ∈ (apply_review dbOne 1 "hard" 0).1.rows) ∧
     (rowOne.id = 1 →
       ({ rowOne with
          review_state := "hard"
          next_review_at := some (calc_next_review "hard" 0) } : Sentence) ∈
         (apply_review dbOne 1 "hard" 0).1.rows)) :=
  ⟨by decide, C6_amended_no_counters dbOne 1 "hard" 0 rowOne (by decide)⟩

/-! ## Claim C8 — duplicate submissions -/

/-- Claim C8 as stated is false on the code: there is no dedup window —
a duplicate `(1, "good")` submission 60 seconds after the first (well
within any reasonable window) is re-applied and moves the stored
`next_review_at` from 86400 to 86460, so the final item state is not
the one a single submission would have produced. -/
theorem C8_counterexample :
    (apply_review (apply_review dbOne 1 "good" 0).1 1 "good" 60).1 ≠
      (apply_review dbOne 1 "good" 0).1 ∧
    ((apply_review (apply_review dbOne 1 "good" 0).1 1 "good" 60).1.rows.map
      (·.next_review_at)) = [some 86460] ∧
    ((apply_review dbOne 1 "good" 0).1.rows.map
      (·.next_review_at)) = [some 86400] := by
  refine ⟨by decide, by decide, by decide⟩

/-- Claim C8 amended: `apply_review` has no dedup mechanism and no
counters that could double-count; what holds is idempotence at a fixed
instant — re-submitting the same `(item_id, rating)` at the same
application instant returns the same response and leaves the store
exactly as after the first submission, while a duplicate arriving later
re-applies the rating from its own instant. -/
theorem C8_amended_idempotent_at_fixed_now (db : DB) (sid : Nat)
    (r : String) (now : Nat) :
    apply_review (apply_review db sid r now).1 sid r now =
      apply_review db sid r now := by
  have hmap : (db.rows.map (updateRow sid r now)).map (updateRow sid r now) =
      db.rows.map (updateRow sid r now) := by
    rw [List.map_map]
    exact List.map_congr_left fun a _ => updateRow_idem sid r now a
  have hany : ((apply_review db sid r now).1.rows).any (fun s => s.id = sid) =
      db.rows.any (fun s => s.id = sid) := by
    rw [apply_review_fst]
    show (db.rows.map (updateRow sid r now)).any (fun s => s.id = sid) = _
    rw [List.any_map]
    congr 1
    funext s
    simp [updateRow_id]
  have hL : (apply_review (apply_review db sid r now).1 sid r now).1 =
      { db with rows := db.rows.map (updateRow sid r now) } := by
    rw [apply_review_fst, apply_review_fst]
    simp [hmap]
  refine Prod.ext ?_ ?_
  · rw [hL, apply_review_fst]
  · rw [apply_review_snd, apply_review_snd, hany]

/-! ## Lemmas about the `ORDER BY … LIMIT 1` scan -/

/-- Folding `pickStep` from a seed row yields a row of the scanned
prefix (or the seed) whose key is minimal; on key ties the earlier
candidate is kept, so a result with the seed's key is the seed. -/
theorem foldl_pickStep_some (l : List Sentence) (b : Sentence) :
    ∃ c, l.foldl pickStep (some b) = some c ∧ (c = b ∨ c ∈ l) ∧
      dueKey c ≤ dueKey b ∧ (∀ r ∈ l, dueKey c ≤ dueKey r) ∧
      (dueKey c = dueKey b → c = b) := by
  induction l generalizing b with
  | nil =>
    exact ⟨b, rfl, Or.inl rfl, le_refl _, by simp, fun _ => rfl⟩
  | cons s t ih =>
    by_cases hlt : dueKey s < dueKey b
    · obtain ⟨c, hc, hmem, hle, hall, -⟩ := ih s
      refine ⟨c, ?_, ?_, ?_, ?_, ?_⟩
      · show t.foldl pickStep (pickStep (some b) s) = some c
        rw [show pickStep (some b) s = some s from by simp [pickStep, hlt]]
        exact hc
      · rcases hmem with rfl | h
        · exact Or.inr (List.mem_cons_self _ _)
        · exact Or.inr (List.mem_cons_of_mem _ h)
      · exact le_of_lt (lt_of_le_of_lt hle hlt)
      · intro r hr
        rcases List.mem_cons.mp hr with rfl | h
        · exact hle
        · exact hall r h
      · intro h
        exact absurd h (ne_of_lt (lt_of_le_of_lt hle hlt))
    · obtain ⟨c, hc, hmem, hle, hall, heq⟩ := ih b
      refine ⟨c, ?_, ?_, hle, ?_, heq⟩
      · show t.foldl pickStep (pickStep (some b) s) = some c
        rw [show pickStep (some b) s = some b from by simp [pickStep, hlt]]
        exact hc
      · rcases hmem with rfl | h
        · exact Or.inl rfl
        · exact Or.inr (List.mem_cons_of_mem _ h)
      · intro r hr
        rcases List.mem_cons.mp hr with rfl | h
        · exact le_trans hle (le_of_not_lt hlt)
        · exact hall r h

/-- The scan returns a row iff the scanned list is nonempty. -/
theorem pickMin_eq_none_iff (l : List Sentence) :
    pickMin l = none ↔ l = [] := by
  cases l with
  | nil => simp [pickMin]
  | cons s t =>
    obtain ⟨c, hc, -, -, -, -⟩ := foldl_pickStep_some t s
    have h1 : pickMin (s :: t) = some c := hc
    simp [h1]

/-- The returned row belongs to the scanned list and has minimal key. -/
theorem pickMin_mem_min (l : List Sentence) (c : Sentence)
    (hc : pickMin l = some c) :
    c ∈ l ∧ ∀ r ∈ l, dueKey c ≤ dueKey r := by
  cases l with
  | nil => simp [pickMin] at hc
  | cons s t =>
    obtain ⟨c', hc', hmem, hle, hall, -⟩ := foldl_pickStep_some t s
    have h1 : pickMin (s :: t) = some c' := hc'
    rw [h1] at hc
    injection hc with hcc
    subst hcc
    constructor
    · rcases hmem with rfl | h
      · exact List.mem_cons_self _ _
      · exact List.mem_cons_of_mem _ h
    · intro r hr
      rcases List.mem_cons.mp hr with rfl | h
      · exact hle
      · exact hall r h

/-- Tie-break: when ids strictly increase along the scan (the rowid
insertion order), the returned row has the smallest id among rows with
its key. -/
theorem foldl_pickStep_tie : ∀ (l : List Sentence) (b c : Sentence),
    (∀ r ∈ l, b.id < r.id) → l.Pairwise (fun a d => a.id < d.id) →
    l.foldl pickStep (some b) = some c →
    ∀ r, (r = b ∨ r ∈ l) → dueKey r = dueKey c → c.id ≤ r.id := by
  intro l
  induction l with
  | nil =>
    intro b c _ _ hc r hr _
    have hbc : b = c := by simpa using hc
    rcases hr with rfl | hr
    · exact le_of_eq (congrArg Sentence.id hbc).symm
    · simp at hr
  | cons s t ih =>
    intro b c hb hl hc
    rw [List.pairwise_cons] at hl
    obtain ⟨hs, hl'⟩ := hl
    by_cases hlt : dueKey s < dueKey b
    · have hstep : t.foldl pickStep (some s) = some c := by
        have hps : pickStep (some b) s = some s := by simp [pickStep, hlt]
        simpa [List.foldl_cons, hps] using hc
      obtain ⟨c', hc', -, hle', -, -⟩ := foldl_pickStep_some t s
      have hcc : c' = c := by
        rw [hstep] at hc'
        exact (Option.some.inj hc').symm
      rw [hcc] at hle'
      intro r hr hkey
      rcases hr with heq0 | hr
      · have hbc : dueKey b = dueKey c := by rw [← heq0]; exact hkey
        exact absurd hbc.symm (ne_of_lt (lt_of_le_of_lt hle' hlt))
      · rcases List.mem_cons.mp hr with heq | hr'
        · exact ih s c hs hl' hstep r (Or.inl heq) hkey
        · exact ih s c hs hl' hstep r (Or.inr hr') hkey
    · have hstep : t.foldl pickStep (some b) = some c := by
        have hps : pickStep (some b) s = some b := by simp [pickStep, hlt]
        simpa [List.foldl_cons, hps] using hc
      have hb' : ∀ r ∈ t, b.id < r.id :=
        fun r hr => hb r (List.mem_cons_of_mem _ hr)
      intro r hr hkey
      rcases hr with heq0 | hr
      · rw [heq0]
        refine ih b c hb' hl' hstep b (Or.inl rfl) ?_
        rw [← heq0]
        exact hkey
      · rcases List.mem_cons.mp hr with heq | hr'
        · obtain ⟨c'', hc'', -, hle'', -, heq''⟩ := foldl_pickStep_some t b
          have hcc : c'' = c := by
            rw [hstep] at hc''
            exact (Option.some.inj hc'').symm
          rw [hcc] at hle'' heq''
          have hks : dueKey s = dueKey c := by rw [← heq]; exact hkey
          have h1 : dueKey c = dueKey b :=
            le_antisymm hle'' (le_trans (le_of_not_lt hlt) (le_of_eq hks))
          have h2 : c = b := heq'' h1
          rw [h2, heq]
          exact le_of_lt (hb s (List.mem_cons_self _ _))
        · exact ih b c hb' hl' hstep r (Or.inr hr') hkey

/-- `pickMin` over an id-sorted list breaks key ties by smallest id. -/
theorem pickMin_tie (l : List Sentence)
    (hl : l.Pairwise (fun a b => a.id < b.id)) (c : Sentence)
    (hc : pickMin l = some c) :
    ∀ r ∈ l, dueKey r = dueKey c → c.id ≤ r.id := by
  cases l with
  | nil => simp [pickMin] at hc
  | cons s t =>
    rw [List.pairwise_cons] at hl
    have hstep : t.foldl pickStep (some s) = some c := hc
    intro r hr hkey
    rcases List.mem_cons.mp hr with heq | hr'
    · exact foldl_pickStep_tie t s c hl.1 hl.2 hstep r (Or.inl heq) hkey
    · exact foldl_pickStep_tie t s c hl.1 hl.2 hstep r (Or.inr hr') hkey

/-! ## Claim C5 — due-item selection -/

/-- Claim C5 as stated is false on the code: the `/next` query has no
partition filter.  With the store holding one due item of the `es`
partition, the spec-side selector for partition `en` returns none, but
`next_sentence` (which cannot even be asked for a partition) returns
the `es` item. -/
theorem C5_counterexample :
    next_due_spec dbEs "en" 100 = none ∧
    next_sentence dbEs 100 = some rowEs ∧
    rowEs.level ≠ "en" := by
  refine ⟨rfl, rfl, by decide⟩

/-- Claim C5 amended: `next_sentence` ignores partitions — among ALL
stored items (any `level`) satisfying the WHERE clause
(`next_review_at IS NULL OR next_review_at <= now`), it returns one
minimising `COALESCE(next_review_at, created_at)`, breaking key ties by
smallest id (rows are scanned in rowid order, which strictly increases);
it returns none exactly when no item at all is due, a normal outcome
rather than an error. -/
theorem C5_amended_selector (db : DB) (now : Nat)
    (hsorted : db.rows.Pairwise (fun a b => a.id < b.id)) :
    (next_sentence db now = none ↔ ∀ s ∈ db.rows, isDue now s = false) ∧
    ∀ c, next_sentence db now = some c →
      c ∈ db.rows ∧ isDue now c = true ∧
      ∀ r ∈ db.rows, isDue now r = true →
        dueKey c ≤ dueKey r ∧ (dueKey r = dueKey c → c.id ≤ r.id) := by
  constructor
  · rw [show next_sentence db now = pickMin (db.rows.filter (isDue now))
        from rfl,
      pickMin_eq_none_iff, List.filter_eq_nil_iff]
    constructor
    · intro h s hs
      simpa using h s hs
    · intro h s hs
      simp [h s hs]
  · intro c hc
    have hfil : pickMin (db.rows.filter (isDue now)) = some c := hc
    obtain ⟨hmem, hmin⟩ := pickMin_mem_min _ c hfil
    have hmem' := List.mem_filter.mp hmem
    refine ⟨hmem'.1, hmem'.2, ?_⟩
    intro r hr hdue
    have hrf : r ∈ db.rows.filter (isDue now) :=
      List.mem_filter.mpr ⟨hr, hdue⟩
    exact ⟨hmin r hrf, fun hkey => pickMin_tie _ (hsorted.filter _) c hfil r hrf hkey⟩

/-- Witness for C5's amended theorem on the concrete store `dbEs` at
time 100. -/
theorem C5_amended_selector_witness :
    dbEs.rows.Pairwise (fun a b => a.id < b.id) ∧
    ((next_sentence dbEs 100 = none ↔ ∀ s ∈ dbEs.rows, isDue 100 s = false) ∧
     ∀ c, next_sentence dbEs 100 = some c →
       c ∈ dbEs.rows ∧ isDue 100 c = true ∧
       ∀ r ∈ dbEs.rows, isDue 100 r = true →
         dueKey c ≤ dueKey r ∧ (dueKey r = dueKey c → c.id ≤ r.id)) :=
  ⟨by simp [dbEs], C5_amended_selector dbEs 100 (by simp [dbEs])⟩

/-! ## Claim C9 — due time after the first write -/

/-- Claim C9 as stated is false on the code: immediately after creation
(`save_sentence` on a fresh store) the stored item's `next_review_at`
IS NULL — the INSERT does not set it, so before any review the due
column is null rather than a defined creation default. -/
theorem C9_counterexample :
    ((save_sentence DB.empty "hola" "a1" "test" none 100).1.rows.map
      (·.next_review_at)) = [none] ∧
    (save_sentence DB.empty "hola" "a1" "test" none 100).1.rows ≠ [] := by
  refine ⟨rfl, by decide⟩

/-- Claim C9 amended: `next_review_at` is NULL at creation and stays
NULL until the first review — `save_sentence` always inserts the new
row with `next_review_at = none` (state `"new"`, `created_at = now`),
and `apply_review` is the writer that sets it: any row it matched ends
with `next_review_at = some (calc_next_review r now)`, which is
non-null. -/
theorem C9_amended_null_until_first_review (db : DB)
    (text level source : String) (chat : Option Int) (now : Nat)
    (sid : Nat) (r : String) (s : Sentence)
    (hs : s ∈ (apply_review db sid r now).1.rows) (hid : s.id = sid) :
    (∃ u ∈ (save_sentence db text level source chat now).1.rows,
      u.id = (save_sentence db text level source chat now).2 ∧
      u.next_review_at = none ∧ u.review_state = "new" ∧
      u.created_at = now) ∧
    s.next_review_at = some (calc_next_review r now) := by
  constructor
  · refine ⟨({ id := db.nextId
               text := text
               level := level
               source := source
               review_state := "new"
               next_review_at := none
               created_at := now
               telegram_chat_id := chat } : Sentence),
      ?_, rfl, rfl, rfl, rfl⟩
    simp [save_sentence]
  · rw [apply_review_fst] at hs
    obtain ⟨t, ht, hts⟩ := List.mem_map.mp hs
    by_cases h : t.id = sid
    · rw [← hts]
      simp [updateRow, h]
    · rw [← hts] at hid
      rw [updateRow, if_neg h] at hid
      exact absurd hid h

/-- Witness for C9's amended theorem: creation into `dbOne` and the
review of item 1 with `"good"` at instant 0. -/
theorem C9_amended_null_until_first_review_witness :
    (({ rowOne with
        review_state := "good"
        next_review_at := some 86400 } : Sentence) ∈
      (apply_review dbOne 1 "good" 0).1.rows) ∧
    ({ rowOne with
       review_state := "good"
       next_review_at := some 86400 } : Sentence).id = 1 ∧
    ((∃ u ∈ (save_sentence dbOne "x" "a1" "test" none 0).1.rows,
        u.id = (save_sentence dbOne "x" "a1" "test" none 0).2 ∧
        u.next_review_at = none ∧ u.review_state = "new" ∧
        u.created_at = 0) ∧
      ({ rowOne with
         review_state := "good"
         next_review_at := some 86400 } : Sentence).next_review_at =
        some (calc_next_review "good" 0)) :=
  ⟨by decide, by decide,
    C9_amended_null_until_first_review dbOne "x" "a1" "test" none 0 1 "good"
      ({ rowOne with
         review_state := "good"
         next_review_at := some 86400 } : Sentence)
      (by decide) (by decide)⟩

/-! ## Claim C10 — never-reviewed items in `/next` -/

/-- Claim C10 (confirmed): a stored item whose `next_review_at` is NULL
passes the `/next` WHERE clause at every query time (it is always in
the filtered candidate list, so `next_sentence` never returns none
while such an item exists), and the ORDER BY key `COALESCE` substitutes
its `created_at` for the missing due time. -/
theorem C10_null_is_immediately_eligible (db : DB) (now : Nat)
    (s : Sentence) (hmem : s ∈ db.rows)
    (hnull : s.next_review_at = none) :
    isDue now s = true ∧
    s ∈ db.rows.filter (isDue now) ∧
    dueKey s = s.created_at ∧
    next_sentence db now ≠ none := by
  have hdue : isDue now s = true := by simp [isDue, hnull]
  have hfil : s ∈ db.rows.filter (isDue now) :=
    List.mem_filter.mpr ⟨hmem, hdue⟩
  refine ⟨hdue, hfil, by simp [dueKey, hnull], ?_⟩
  intro h
  have hnil : db.rows.filter (isDue now) = [] :=
    (pickMin_eq_none_iff _).mp h
  rw [hnil] at hfil
  simp at hfil

/-- Witness for C10: `rowOne` (never reviewed) in `dbOne` at time 0. -/
theorem C10_null_is_immediately_eligible_witness :
    rowOne ∈ dbOne.rows ∧ rowOne.next_review_at = none ∧
    (isDue 0 rowOne = true ∧
     rowOne ∈ dbOne.rows.filter (isDue 0) ∧
     dueKey rowOne = rowOne.created_at ∧
     next_sentence dbOne 0 ≠ none) :=
  ⟨by decide, rfl,
    C10_null_is_immediately_eligible dbOne 0 rowOne (by decide) rfl⟩
